import Mathlib

/-
Shallow embedding of the universal file-format ingestion layer
(src/js/core/UniversalDataAdapter.js) of the Modulardatavizualizer
repository, together with theorems settling the frozen claims about it.

Conventions of the embedding:
* A byte buffer (JS ArrayBuffer viewed through a DataView) is a `List ℕ`
  of byte values; an out-of-range DataView read raises `RangeError`,
  modelled with `Except`.
* A JS number is `JSNum`: NaN, a signed infinity, or a finite value.
  Finite values are carried as exact rationals; IEEE-754 double rounding
  is not modelled (the claims under study only compare values that the
  code computes by the very same arithmetic expressions, so the
  abstraction is faithful for them).  Negative zero is identified with
  zero.
* JS `parseInt` / `parseFloat` are modelled on their decimal forms
  (leading-whitespace skipping, optional sign, longest valid prefix);
  the hexadecimal `0x` mode of `parseInt` and the `Infinity` literal of
  `parseFloat` do not occur in any decoded field and are modelled as
  not-a-number.
* Fallible decoders return `Except JsError …`; total JS functions are
  total Lean functions.
-/

set_option maxRecDepth 8000

namespace Adapter

/-- Runtime error kinds that the adapter's JS code can raise: a
`DataView` access past the end of the buffer (`rangeError`, the spec's
`TruncatedInput`), and a property access on `undefined`
(`typeError`). -/
inductive JsError where
  | rangeError : JsError
  | typeError : JsError
deriving DecidableEq

/-- JS number value: NaN, a signed infinity, or a finite value carried
as an exact rational. -/
inductive JSNum where
  | nan : JSNum
  | inf : Bool → JSNum
  | fin : ℚ → JSNum
deriving DecidableEq

/-- JS subtraction on `JSNum` (used for the OBJ `parseInt(x) - 1`
index normalization). -/
def jsSub : JSNum → JSNum → JSNum
  | .nan, _ => .nan
  | _, .nan => .nan
  | .inf s, .inf t => if s = t then .nan else .inf s
  | .inf s, .fin _ => .inf s
  | .fin _, .inf t => .inf (!t)
  | .fin a, .fin b => .fin (a - b)

/-- JS multiplication on `JSNum`. -/
def jsMul : JSNum → JSNum → JSNum
  | .nan, _ => .nan
  | _, .nan => .nan
  | .inf s, .inf t => .inf (xor s t)
  | .inf s, .fin q => if q = 0 then .nan else .inf (xor s (decide (q < 0)))
  | .fin q, .inf t => if q = 0 then .nan else .inf (xor (decide (q < 0)) t)
  | .fin a, .fin b => .fin (a * b)

/-- JS division on `JSNum`; division of a nonzero finite value by zero
gives a signed infinity, `0 / 0` gives NaN. -/
def jsDiv : JSNum → JSNum → JSNum
  | .nan, _ => .nan
  | _, .nan => .nan
  | .inf _, .inf _ => .nan
  | .inf s, .fin q => .inf (xor s (decide (q < 0)))
  | .fin _, .inf _ => .fin 0
  | .fin a, .fin b =>
      if b = 0 then (if a = 0 then .nan else .inf (decide (a < 0)))
      else .fin (a / b)

/-- JS `isNaN` on a `JSNum`. -/
def isNaNb : JSNum → Bool
  | .nan => true
  | _ => false

/-- JS `Math.floor` on a `JSNum`. -/
def jsFloor : JSNum → JSNum
  | .nan => .nan
  | .inf s => .inf s
  | .fin q => .fin (⌊q⌋ : ℚ)

/-- Value of a list of decimal digit characters. -/
def digitsToNat (l : List Char) : ℕ :=
  l.foldl (fun acc c => 10 * acc + (c.toNat - 48)) 0

/-- Model of JS `parseInt` (decimal mode): skip leading whitespace,
optional sign, then the longest prefix of decimal digits; NaN when no
digit is present.  The `0x` hexadecimal mode never occurs in the
adapter's inputs and is not modelled. -/
def jsParseInt (s : String) : JSNum :=
  let cs := s.data.dropWhile (fun c => c.isWhitespace)
  let neg := cs.head? == some '-'
  let cs1 := if cs.head? == some '-' || cs.head? == some '+' then cs.tail else cs
  let ds := cs1.takeWhile (fun c => c.isDigit)
  if ds.isEmpty then .nan
  else .fin (if neg then -(digitsToNat ds : ℚ) else (digitsToNat ds : ℚ))

/-- Model of JS `parseFloat`: skip leading whitespace, optional sign,
then the longest prefix of the form `digits [. digits] [e [sign] digits]`
(at least one mantissa digit required); NaN when no such prefix exists.
The `Infinity` literal never occurs in the adapter's inputs and is not
modelled. -/
def jsParseFloat (s : String) : JSNum :=
  let cs := s.data.dropWhile (fun c => c.isWhitespace)
  let neg := cs.head? == some '-'
  let cs1 := if cs.head? == some '-' || cs.head? == some '+' then cs.tail else cs
  let ip := cs1.takeWhile (fun c => c.isDigit)
  let rest1 := cs1.dropWhile (fun c => c.isDigit)
  let fp := if rest1.head? == some '.' then rest1.tail.takeWhile (fun c => c.isDigit) else []
  let rest2 := if rest1.head? == some '.' then rest1.tail.dropWhile (fun c => c.isDigit) else rest1
  if ip.isEmpty && fp.isEmpty then .nan
  else
    let mant : ℚ := (digitsToNat ip : ℚ) + (digitsToNat fp : ℚ) / (10 : ℚ) ^ fp.length
    let expo : ℤ :=
      if rest2.head? == some 'e' || rest2.head? == some 'E' then
        let es := rest2.tail
        let eneg := es.head? == some '-'
        let es1 := if es.head? == some '-' || es.head? == some '+' then es.tail else es
        let eds := es1.takeWhile (fun c => c.isDigit)
        if eds.isEmpty then 0
        else if eneg then -(digitsToNat eds : ℤ) else (digitsToNat eds : ℤ)
      else 0
    let v : ℚ := mant * (10 : ℚ) ^ expo
    .fin (if neg then -v else v)

/-- JS `parseFloat` applied to a possibly-`undefined` array slot
(`parseFloat(undefined)` is NaN). -/
def jsParseFloatOpt : Option String → JSNum
  | none => .nan
  | some s => jsParseFloat s

/-- Byte buffer: the adapter's `ArrayBuffer` contents. -/
abbrev ByteBuf := List ℕ

/-- Model of `DataView.getUint8`: out-of-range access raises
`RangeError`. -/
def getUint8 (buf : ByteBuf) (i : ℕ) : Except JsError ℕ :=
  if i < buf.length then .ok (buf.getD i 0) else .error .rangeError

/-- Model of `DataView.getUint32(off, true)` (little-endian). -/
def getUint32 (buf : ByteBuf) (off : ℕ) : Except JsError ℕ := do
  let b0 ← getUint8 buf off
  let b1 ← getUint8 buf (off + 1)
  let b2 ← getUint8 buf (off + 2)
  let b3 ← getUint8 buf (off + 3)
  .ok (b0 + 256 * b1 + 65536 * b2 + 16777216 * b3)

/-- Model of `DataView.getInt32(off, true)` (little-endian, two's
complement). -/
def getInt32 (buf : ByteBuf) (off : ℕ) : Except JsError ℤ := do
  let bits ← getUint32 buf off
  .ok (if bits < 2 ^ 31 then (bits : ℤ) else (bits : ℤ) - 2 ^ 32)

/-- Model of `DataView.getInt16(off, true)` (little-endian, two's
complement). -/
def getInt16 (buf : ByteBuf) (off : ℕ) : Except JsError ℤ := do
  let b0 ← getUint8 buf off
  let b1 ← getUint8 buf (off + 1)
  let bits := b0 + 256 * b1
  .ok (if bits < 2 ^ 15 then (bits : ℤ) else (bits : ℤ) - 2 ^ 16)

/-- Value of an IEEE-754 binary32 bit pattern as a `JSNum` (exact; a
float32 is exactly representable as a rational). -/
def float32OfBits (bits : ℕ) : JSNum :=
  let sign : ℕ := bits / 2 ^ 31
  let expo : ℕ := bits / 2 ^ 23 % 2 ^ 8
  let frac : ℕ := bits % 2 ^ 23
  if expo == 255 then (if frac == 0 then .inf (sign == 1) else .nan)
  else
    let mag : ℚ :=
      if expo == 0 then (frac : ℚ) * (2 : ℚ) ^ (-(149 : ℤ))
      else ((2 ^ 23 + frac : ℕ) : ℚ) * (2 : ℚ) ^ ((expo : ℤ) - 150)
    .fin (if sign == 1 then -mag else mag)

/-- Model of `DataView.getFloat32(off, true)` (little-endian). -/
def getFloat32 (buf : ByteBuf) (off : ℕ) : Except JsError JSNum := do
  let b0 ← getUint8 buf off
  let b1 ← getUint8 buf (off + 1)
  let b2 ← getUint8 buf (off + 2)
  let b3 ← getUint8 buf (off + 3)
  .ok (float32OfBits (b0 + 256 * b1 + 65536 * b2 + 16777216 * b3))

/-- Loop body of the adapter's `readString`: read up to `n` bytes from
`off`, stopping early at a zero byte; any access past the buffer end
raises `RangeError` (exactly as `getUint8` does in the source loop). -/
def readStringAux (buf : ByteBuf) (off : ℕ) : ℕ → Except JsError (List Char)
  | 0 => .ok []
  | n + 1 => do
    let b ← getUint8 buf off
    if b == 0 then .ok []
    else do
      let rest ← readStringAux buf (off + 1) n
      .ok (Char.ofNat b :: rest)

/-- Model of the adapter's `readString(dataView, offset, length)`
utility: fixed-width ASCII field extraction, stopping at a NUL byte. -/
def readString (buf : ByteBuf) (off len : ℕ) : Except JsError String := do
  let cs ← readStringAux buf off len
  .ok (String.mk cs)

/-- Boolean success test for an `Except` result. -/
def isOkE {α : Type} : Except JsError α → Bool
  | .ok _ => true
  | .error _ => false

instance {ε α : Type} [DecidableEq ε] [DecidableEq α] : DecidableEq (Except ε α) := fun x y =>
  match x, y with
  | .ok a, .ok b =>
    if h : a = b then .isTrue (congrArg Except.ok h)
    else .isFalse (fun hc => h (Except.ok.inj hc))
  | .error a, .error b =>
    if h : a = b then .isTrue (congrArg Except.error h)
    else .isFalse (fun hc => h (Except.error.inj hc))
  | .ok _, .error _ => .isFalse (fun hc => Except.noConfusion hc)
  | .error _, .ok _ => .isFalse (fun hc => Except.noConfusion hc)

/-- Splitting loop: cut the character list at every separator position
(characters satisfying `p`), keeping empty segments, exactly like JS
`String.prototype.split` with a single-character separator. -/
def splitPredAux (p : Char → Bool) : List Char → List Char → List String
  | [], acc => [String.mk acc.reverse]
  | c :: cs, acc =>
    if p c then String.mk acc.reverse :: splitPredAux p cs []
    else splitPredAux p cs (c :: acc)

/-- Split a string at every character satisfying `p`, keeping empty
segments. -/
def splitPred (p : Char → Bool) (s : String) : List String :=
  splitPredAux p s.data []

/-- Model of JS `String.prototype.split` with a one-character separator
(every separator the adapter uses — `'\n'`, `','`, tab, `'.'`, `'/'` —
is one character). -/
def splitChar (sep : Char) (s : String) : List String :=
  splitPred (fun c => c == sep) s

/-- Model of JS `String.prototype.trim` (whitespace from both ends). -/
def jsTrim (s : String) : String :=
  String.mk (((s.data.dropWhile (fun c => c.isWhitespace)).reverse.dropWhile
    (fun c => c.isWhitespace)).reverse)

/-- Model of JS `String.prototype.includes` with a one-character
needle. -/
def jsIncludes (s : String) (c : Char) : Bool :=
  s.data.contains c

/-- Model of JS `String.prototype.toLowerCase` (ASCII range; the
adapter only compares ASCII keywords and extensions). -/
def jsToLowerCase (s : String) : String :=
  String.mk (s.data.map Char.toLower)

/-- Starts-with test on character lists, modelling JS
`String.prototype.startsWith`. -/
def listStartsWith : List Char → List Char → Bool
  | _, [] => true
  | [], _ :: _ => false
  | a :: as, b :: bs => a == b && listStartsWith as bs

/-- Model of JS `String.prototype.startsWith`. -/
def jsStartsWith (s pre : String) : Bool :=
  listStartsWith s.data pre.data

/-- Model of splitting a trimmed JS string by the regular expression of
one-or-more whitespace characters (the adapter always applies it after
`trim()`): the empty string yields a single empty token, exactly as in
JS. -/
def splitWS (s : String) : List String :=
  if s == "" then [""]
  else (splitPred (fun c => c.isWhitespace) s).filter (fun t => t ≠ "")

/-- Non-empty lines of a text, modelling the adapter's recurring
`text.split('\n').filter(line => line.trim())` idiom. -/
def nonBlankLines (text : String) : List String :=
  (splitChar '\n' text).filter (fun l => jsTrim l ≠ "")

/-! ## Modality classifier (detectDataType / getFileExtension) -/

/-- The static extension table `this.supportedFormats`, in the source's
insertion order (the order is observable: `detectDataType` returns the
first matching category). -/
def supportedFormats : List (String × List String) :=
  [("audio", [".wav", ".mp3", ".ogg", ".flac", ".m4a"]),
   ("eeg", [".edf", ".bdf", ".fif", ".set", ".csv", ".txt"]),
   ("neuroimaging", [".nii", ".nii.gz", ".dcm", ".dicom"]),
   ("mesh3d", [".obj", ".stl", ".ply", ".gltf", ".glb"]),
   ("pointcloud", [".xyz", ".pcd", ".pts", ".asc"]),
   ("timeseries", [".csv", ".tsv", ".json", ".txt"]),
   ("image", [".png", ".jpg", ".jpeg", ".tiff", ".bmp"]),
   ("video", [".mp4", ".webm", ".avi"]),
   ("generic", [".bin", ".dat"])]

/-- Model of `detectDataType(extension, file)`: first matching category
of the extension table, then MIME-prefix fallback, then `'generic'`. -/
def detectDataType (extension mimeType : String) : String :=
  match supportedFormats.find? (fun p => p.2.contains extension) with
  | some p => p.1
  | none =>
    if jsStartsWith mimeType "audio/" then "audio"
    else if jsStartsWith mimeType "image/" then "image"
    else if jsStartsWith mimeType "video/" then "video"
    else "generic"

/-- Model of `getFileExtension(filename)`: lower-case, split on dots,
special-case a trailing `nii.gz` pair, else the last dot segment. -/
def getFileExtension (filename : String) : String :=
  let parts := splitChar '.' (jsToLowerCase filename)
  if parts.length == 1 then ""
  else if parts.getD (parts.length - 2) "" == "nii" &&
          parts.getD (parts.length - 1) "" == "gz" then ".nii.gz"
  else "." ++ parts.getD (parts.length - 1) ""

/-- Classification of a file from its name and MIME type, as performed
at the start of `loadFile`. -/
def detectFromFile (filename mimeType : String) : String :=
  detectDataType (getFileExtension filename) mimeType

/-- Concrete decoder selected for a file: the composition of the
`loadFile` switch with the per-modality dispatchers (`parseEEG`,
`parseNeuroimaging`, `parse3DMesh`, `parsePointCloud`,
`parseTimeSeries`).  The `…Unsupported` tags are the dispatchers'
`throw new Error(… not yet implemented)` branches. -/
inductive ParsePath where
  | audio | edf | csvAsEEG | eegUnsupported
  | nifti | neuroUnsupported
  | obj | stl | ply | gltf | meshUnsupported
  | xyz | pcd | pcUnsupported
  | tsJSON | tsCSV
  | image | video | generic
deriving DecidableEq

/-- Decoder routing of `loadFile` composed with the per-modality
dispatchers, as a function of filename and MIME type. -/
def parseRoute (filename mimeType : String) : ParsePath :=
  let extension := getFileExtension filename
  let dataType := detectDataType extension mimeType
  if dataType == "audio" then .audio
  else if dataType == "eeg" then
    if extension == ".edf" || extension == ".bdf" then .edf
    else if extension == ".csv" || extension == ".txt" then .csvAsEEG
    else .eegUnsupported
  else if dataType == "neuroimaging" then
    if extension == ".nii" || extension == ".nii.gz" then .nifti
    else .neuroUnsupported
  else if dataType == "mesh3d" then
    if extension == ".obj" then .obj
    else if extension == ".stl" then .stl
    else if extension == ".ply" then .ply
    else if extension == ".gltf" || extension == ".glb" then .gltf
    else .meshUnsupported
  else if dataType == "pointcloud" then
    if extension == ".xyz" || extension == ".pts" || extension == ".asc" then .xyz
    else if extension == ".pcd" then .pcd
    else .pcUnsupported
  else if dataType == "timeseries" then
    if extension == ".json" then .tsJSON else .tsCSV
  else if dataType == "image" then .image
  else if dataType == "video" then .video
  else .generic

/-! ## EDF decoder (parseEDF) -/

/-- The 256-byte EDF file header, fields exactly as `parseEDF` builds
them (numeric fields keep JS number semantics: a failed `parseInt` /
`parseFloat` is NaN, not an error). -/
structure EDFHeader where
  version : String
  patientID : String
  recordingID : String
  startDate : String
  startTime : String
  headerBytes : JSNum
  reserved : String
  numRecords : JSNum
  recordDuration : JSNum
  numSignals : JSNum
deriving DecidableEq

/-- One 256-byte per-signal EDF header, fields as `parseEDF` builds
them (the label is trimmed, all other strings are kept verbatim). -/
structure EDFSignal where
  label : String
  transducerType : String
  physicalDimension : String
  physicalMin : JSNum
  physicalMax : JSNum
  digitalMin : JSNum
  digitalMax : JSNum
  prefiltering : String
  numSamples : JSNum
  reserved : String
deriving DecidableEq

/-- Result object of `parseEDF`, including the derived metadata the
function stores on `this.metadata` (sampleRate, channels, duration). -/
structure EDFResult where
  header : EDFHeader
  signals : List EDFSignal
  dataOffset : JSNum
  sampleRate : JSNum
  channels : JSNum
  duration : JSNum
deriving DecidableEq

/-- Parse of one per-signal header at byte offset `off`, mirroring the
body of the signal loop in `parseEDF`. -/
def parseEDFSignal (buf : ByteBuf) (off : ℕ) : Except JsError EDFSignal := do
  let label ← readString buf off 16
  let transducerType ← readString buf (off + 16) 80
  let physicalDimension ← readString buf (off + 96) 8
  let physicalMin ← readString buf (off + 104) 8
  let physicalMax ← readString buf (off + 112) 8
  let digitalMin ← readString buf (off + 120) 8
  let digitalMax ← readString buf (off + 128) 8
  let prefiltering ← readString buf (off + 136) 80
  let numSamples ← readString buf (off + 216) 8
  let reserved ← readString buf (off + 224) 32
  .ok { label := jsTrim label
        transducerType := transducerType
        physicalDimension := physicalDimension
        physicalMin := jsParseFloat physicalMin
        physicalMax := jsParseFloat physicalMax
        digitalMin := jsParseInt digitalMin
        digitalMax := jsParseInt digitalMax
        prefiltering := prefiltering
        numSamples := jsParseInt numSamples
        reserved := reserved }

/-- Signal-header loop of `parseEDF`: `k` iterations starting at byte
offset `off`, advancing 256 bytes per signal. -/
def parseEDFSignals (buf : ByteBuf) (off : ℕ) : ℕ → Except JsError (List EDFSignal)
  | 0 => .ok []
  | k + 1 => do
    let s ← parseEDFSignal buf off
    let rest ← parseEDFSignals buf (off + 256) k
    .ok (s :: rest)

/-- Iteration count of a JS `for (let i = 0; i < n; i++)` loop whose
bound is a `JSNum`: NaN and negative bounds give zero iterations.  (An
infinite bound cannot arise here: the bound is a `parseInt` result,
which is never an infinity; that case is mapped to zero.) -/
def jsLoopCount : JSNum → ℕ
  | .nan => 0
  | .inf _ => 0
  | .fin q => q.ceil.toNat

/-- The `header` object literal of `parseEDF`: ten fixed-offset reads
of the 256-byte EDF file header. -/
def parseEDFFileHeader (buf : ByteBuf) : Except JsError EDFHeader := do
  let version ← readString buf 0 8
  let patientID ← readString buf 8 80
  let recordingID ← readString buf 88 80
  let startDate ← readString buf 168 8
  let startTime ← readString buf 176 8
  let headerBytes ← readString buf 184 8
  let reserved ← readString buf 192 44
  let numRecords ← readString buf 236 8
  let recordDuration ← readString buf 244 8
  let numSignals ← readString buf 252 4
  .ok { version := version
        patientID := patientID
        recordingID := recordingID
        startDate := startDate
        startTime := startTime
        headerBytes := jsParseInt headerBytes
        reserved := reserved
        numRecords := jsParseInt numRecords
        recordDuration := jsParseFloat recordDuration
        numSignals := jsParseInt numSignals }

/-- Model of `parseEDF`: fixed-offset 256-byte file header, then one
256-byte header per declared signal, then the derived metadata.  The
final `signals[0].numSamples` of the source dereferences the first
element of the signal list and raises `TypeError` when the list is
empty. -/
def parseEDF (buf : ByteBuf) : Except JsError EDFResult := do
  let header ← parseEDFFileHeader buf
  let signals ← parseEDFSignals buf 256 (jsLoopCount header.numSignals)
  match signals.head? with
  | none => .error .typeError
  | some sig0 =>
    let sampleRate := jsDiv sig0.numSamples header.recordDuration
    let duration := jsMul header.numRecords header.recordDuration
    .ok { header := header
          signals := signals
          dataOffset := header.headerBytes
          sampleRate := sampleRate
          channels := header.numSignals
          duration := duration }

/-! ## CSV-as-EEG decoder (parseCSVasEEG) -/

/-- Result object of `parseCSVasEEG`.  Sample values keep JS number
semantics; the float32 rounding applied by the final
`new Float32Array(ch)` is not modelled (the claims under study only
concern channel names and counts, which it cannot affect). -/
structure CSVEEGResult where
  channels : List (List JSNum)
  channelNames : List String
  sampleRate : ℚ
  samples : ℕ
deriving DecidableEq

/-- Delimiter auto-detection of the CSV decoders: tab when the text
contains one, else comma. -/
def csvDelimiter (text : String) : Char :=
  if jsIncludes text '\t' then '\t' else ','

/-- One data row of `parseCSVasEEG`: channel `i` receives the parsed
value at index `i` when one exists and is not NaN (the `values.forEach`
body of the source, viewed channel-wise: values beyond the channel
count are dropped, channels beyond the value count are unchanged). -/
def pushRow : List JSNum → List (List JSNum) → List (List JSNum)
  | _, [] => []
  | [], ch :: chs => ch :: pushRow [] chs
  | v :: vs, ch :: chs => (if isNaNb v then ch else ch ++ [v]) :: pushRow vs chs

/-- Body of `parseCSVasEEG` once at least one non-blank line exists:
header detection by `isNaN(parseFloat(firstLine[0]))` — only the first
token of the first row is examined — then per-row channel pushes. -/
def parseCSVLines (delimiter : Char) (l0 : String) (rest : List String) : CSVEEGResult :=
  let firstLine := splitChar delimiter l0
  let hasHeader := isNaNb (jsParseFloat (firstLine.getD 0 ""))
  let channelNames :=
    if hasHeader then firstLine
    else firstLine.mapIdx (fun i _ => "Ch" ++ toString (i + 1))
  let dataLines := if hasHeader then rest else l0 :: rest
  let numChannels := channelNames.length
  let channels0 : List (List JSNum) := List.replicate numChannels []
  let channels := dataLines.foldl
    (fun chs line => pushRow ((splitChar delimiter line).map jsParseFloat) chs) channels0
  { channels := channels
    channelNames := channelNames
    sampleRate := 250
    samples := (channels.getD 0 []).length }

/-- Model of `parseCSVasEEG`: non-empty lines, delimiter detection,
then `parseCSVLines`.  On a text with no non-blank line, the source's
`lines[0].split` dereferences `undefined` and raises `TypeError`. -/
def parseCSVasEEG (text : String) : Except JsError CSVEEGResult :=
  match nonBlankLines text with
  | [] => .error .typeError
  | l0 :: rest => .ok (parseCSVLines (csvDelimiter text) l0 rest)

/-! ## NIfTI-1 header decoder (parseNIfTI) -/

/-- The NIfTI-1 header fields read by `parseNIfTI`. -/
structure NIfTIHeader where
  sizeofHdr : ℤ
  dim : List ℤ
  datatype : ℤ
  bitpix : ℤ
  pixdim : List JSNum
  voxOffset : JSNum
  sclSlope : JSNum
  sclInter : JSNum
deriving DecidableEq

/-- Result object of `parseNIfTI`. -/
structure NIfTIResult where
  header : NIfTIHeader
  dataOffset : JSNum
  dimensions : List ℤ
  voxelSize : List JSNum
deriving DecidableEq

/-- Little-endian int16 array read (`Array.from({length: k}, …)` with
`getInt16(off + i*2)`). -/
def readInt16List (buf : ByteBuf) (off : ℕ) : ℕ → Except JsError (List ℤ)
  | 0 => .ok []
  | k + 1 => do
    let x ← getInt16 buf off
    let rest ← readInt16List buf (off + 2) k
    .ok (x :: rest)

/-- Little-endian float32 array read (`Array.from({length: k}, …)` with
`getFloat32(off + i*4)`). -/
def readFloat32List (buf : ByteBuf) (off : ℕ) : ℕ → Except JsError (List JSNum)
  | 0 => .ok []
  | k + 1 => do
    let x ← getFloat32 buf off
    let rest ← readFloat32List buf (off + 4) k
    .ok (x :: rest)

/-- Model of `parseNIfTI`: fixed little-endian reads at the NIfTI-1
offsets.  Note the source stores `sizeofHdr` but never compares it with
anything: there is no 348 validation. -/
def parseNIfTI (buf : ByteBuf) : Except JsError NIfTIResult := do
  let sizeofHdr ← getInt32 buf 0
  let dim ← readInt16List buf 40 8
  let datatype ← getInt16 buf 70
  let bitpix ← getInt16 buf 72
  let pixdim ← readFloat32List buf 76 8
  let voxOffset ← getFloat32 buf 108
  let sclSlope ← getFloat32 buf 112
  let sclInter ← getFloat32 buf 116
  let header : NIfTIHeader :=
    { sizeofHdr := sizeofHdr
      dim := dim
      datatype := datatype
      bitpix := bitpix
      pixdim := pixdim
      voxOffset := voxOffset
      sclSlope := sclSlope
      sclInter := sclInter }
  .ok { header := header
        dataOffset := jsFloor voxOffset
        dimensions := (dim.drop 1).take 3
        voxelSize := (pixdim.drop 1).take 3 }

/-! ## OBJ decoder (parseOBJ) -/

/-- One vertex group of an OBJ face, as `parseOBJ` stores it: the
`v`/`vt`/`vn` indices after the `parseInt(x) - 1` normalization;
`none` models the `null` stored when the subgroup is absent or empty
(JS falsiness of `undefined` and of the empty string). -/
structure OBJFaceVertex where
  v : JSNum
  vt : Option JSNum
  vn : Option JSNum
deriving DecidableEq

/-- Result object of `parseOBJ`. -/
structure OBJResult where
  vertices : List (JSNum × JSNum × JSNum)
  normals : List (JSNum × JSNum × JSNum)
  texcoords : List (JSNum × JSNum)
  faces : List (List OBJFaceVertex)
deriving DecidableEq

/-- Parse of one face token `v[/vt[/vn]]`, mirroring the loop body of
the `f` branch of `parseOBJ` (OBJ indices start at 1, hence the
subtraction). -/
def parseOBJFaceVertex (tok : String) : OBJFaceVertex :=
  let indices := splitChar '/' tok
  let t1 := indices.getD 1 ""
  let t2 := indices.getD 2 ""
  { v := jsSub (jsParseInt (indices.getD 0 "")) (.fin 1)
    vt := if t1 == "" then none else some (jsSub (jsParseInt t1) (.fin 1))
    vn := if t2 == "" then none else some (jsSub (jsParseInt t2) (.fin 1)) }

/-- One line of the `parseOBJ` loop: dispatch on the first whitespace
token.  There is no validation: `f` lines of any arity are stored, and
indices are not compared with the vertex list. -/
def parseOBJLine (acc : OBJResult) (line : String) : OBJResult :=
  let parts := splitWS (jsTrim line)
  let t := parts.getD 0 ""
  if t == "v" then
    { acc with vertices := acc.vertices ++
        [(jsParseFloatOpt (parts.get? 1), jsParseFloatOpt (parts.get? 2),
          jsParseFloatOpt (parts.get? 3))] }
  else if t == "vn" then
    { acc with normals := acc.normals ++
        [(jsParseFloatOpt (parts.get? 1), jsParseFloatOpt (parts.get? 2),
          jsParseFloatOpt (parts.get? 3))] }
  else if t == "vt" then
    { acc with texcoords := acc.texcoords ++
        [(jsParseFloatOpt (parts.get? 1), jsParseFloatOpt (parts.get? 2))] }
  else if t == "f" then
    { acc with faces := acc.faces ++ [(parts.drop 1).map parseOBJFaceVertex] }
  else acc

/-- Model of `parseOBJ`: fold the line handler over `text.split('\n')`
(lines are not pre-filtered in the source). -/
def parseOBJ (text : String) : OBJResult :=
  (splitChar '\n' text).foldl parseOBJLine
    { vertices := [], normals := [], texcoords := [], faces := [] }

/-! ## STL decoders (parseSTL / parseSTLBinary) -/

/-- Branch taken by `parseSTL`. -/
inductive STLRoute where
  | ascii : STLRoute
  | binary : STLRoute
deriving DecidableEq

/-- Model of the ASCII/binary dispatch of `parseSTL`:
`text.toLowerCase().startsWith('solid')` — note there is no skipping of
leading whitespace. -/
def parseSTLRoute (text : String) : STLRoute :=
  if jsStartsWith (jsToLowerCase text) "solid" then .ascii else .binary

/-- Result object of `parseSTLBinary`. -/
structure STLResult where
  vertices : List (JSNum × JSNum × JSNum)
  normals : List (JSNum × JSNum × JSNum)
  triangleCount : ℕ
deriving DecidableEq

/-- Three consecutive little-endian float32 values (a normal or vertex
triple of a binary STL record). -/
def readVec3 (buf : ByteBuf) (off : ℕ) : Except JsError (JSNum × JSNum × JSNum) := do
  let x ← getFloat32 buf off
  let y ← getFloat32 buf (off + 4)
  let z ← getFloat32 buf (off + 8)
  .ok (x, y, z)

/-- Triangle loop of `parseSTLBinary`: per triangle, a 12-byte normal,
three 12-byte vertices (the normal is pushed once per vertex), then a
2-byte attribute count that is skipped by `offset += 2` — those two
bytes are never read from the buffer. -/
def parseSTLTriangles (buf : ByteBuf) (off : ℕ) :
    ℕ → Except JsError (List (JSNum × JSNum × JSNum) × List (JSNum × JSNum × JSNum))
  | 0 => .ok ([], [])
  | k + 1 => do
    let n ← readVec3 buf off
    let v0 ← readVec3 buf (off + 12)
    let v1 ← readVec3 buf (off + 24)
    let v2 ← readVec3 buf (off + 36)
    let rest ← parseSTLTriangles buf (off + 50) k
    .ok (v0 :: v1 :: v2 :: rest.1, n :: n :: n :: rest.2)

/-- Model of `parseSTLBinary`: skip the 80-byte header, read the
little-endian uint32 triangle count at offset 80, then run the triangle
loop from offset 84. -/
def parseSTLBinary (buf : ByteBuf) : Except JsError STLResult := do
  let triangleCount ← getUint32 buf 80
  let vn ← parseSTLTriangles buf 84 triangleCount
  .ok { vertices := vn.1, normals := vn.2, triangleCount := triangleCount }

/-! ## XYZ point-cloud decoder (parseXYZ) -/

/-- Result object of `parseXYZ`: the color list is `null` (`none`) when
no line contributed a color. -/
structure XYZResult where
  points : List (JSNum × JSNum × JSNum)
  colors : Option (List (JSNum × JSNum × JSNum))
  pointCount : ℕ
deriving DecidableEq

/-- One line of the `parseXYZ` loop: split the trimmed line on
whitespace, map `parseFloat` over the tokens, keep the first three as a
point when at least 3 tokens are present, and the next three as a color
when at least 6 are. -/
def xyzStep (acc : List (JSNum × JSNum × JSNum) × List (JSNum × JSNum × JSNum))
    (line : String) :
    List (JSNum × JSNum × JSNum) × List (JSNum × JSNum × JSNum) :=
  let parts := (splitWS (jsTrim line)).map jsParseFloat
  if 3 ≤ parts.length then
    (acc.1 ++ [(parts.getD 0 .nan, parts.getD 1 .nan, parts.getD 2 .nan)],
     if 6 ≤ parts.length then
       acc.2 ++ [(parts.getD 3 .nan, parts.getD 4 .nan, parts.getD 5 .nan)]
     else acc.2)
  else acc

/-- Model of `parseXYZ`: fold the line handler over the non-blank
lines; the color list is returned only when non-empty. -/
def parseXYZ (text : String) : XYZResult :=
  let pc := (nonBlankLines text).foldl xyzStep ([], [])
  { points := pc.1
    colors := if 0 < pc.2.length then some pc.2 else none
    pointCount := pc.1.length }

/-! ## Concrete inputs and claim predicates used by the theorems -/

/-- Space-padded fixed-width ASCII field, for building EDF header
buffers (EDF pads header fields with spaces). -/
def asciiField (s : String) (w : ℕ) : List ℕ :=
  ((s.data.map Char.toNat) ++ List.replicate w 32).take w

/-- A well-formed 512-byte EDF buffer: 10 data records of 2 seconds
each, one signal with 100 samples per record. -/
def edfBuf1 : ByteBuf :=
  asciiField "0" 8 ++ asciiField "patient" 80 ++ asciiField "rec" 80 ++
  asciiField "01.01.01" 8 ++ asciiField "00.00.00" 8 ++ asciiField "512" 8 ++
  asciiField "" 44 ++ asciiField "10" 8 ++ asciiField "2" 8 ++ asciiField "1" 4 ++
  (asciiField "C3" 16 ++ asciiField "" 80 ++ asciiField "uV" 8 ++ asciiField "-100" 8 ++
   asciiField "100" 8 ++ asciiField "-2048" 8 ++ asciiField "2047" 8 ++ asciiField "" 80 ++
   asciiField "100" 8 ++ asciiField "" 32)

/-- A 256-byte EDF buffer whose header declares zero signals (1 record
of 1 second, signal-count field `"0   "`). -/
def edfBuf0 : ByteBuf :=
  asciiField "0" 8 ++ asciiField "patient" 80 ++ asciiField "rec" 80 ++
  asciiField "01.01.01" 8 ++ asciiField "00.00.00" 8 ++ asciiField "256" 8 ++
  asciiField "" 44 ++ asciiField "1" 8 ++ asciiField "1" 8 ++ asciiField "0" 4

/-- Binary STL buffer declaring 2 triangles with the full 184-byte
layout present (all-zero payload). -/
def stlFullBuf : ByteBuf := List.replicate 80 0 ++ [2, 0, 0, 0] ++ List.replicate 100 0

/-- Binary STL buffer declaring 1 triangle but 132 bytes long: the
declared layout needs 134 bytes, the missing 2 being the trailing
attribute bytes that the decoder skips without reading. -/
def stlSlackBuf : ByteBuf := List.replicate 80 0 ++ [1, 0, 0, 0] ++ List.replicate 48 0

/-- All-zero 348-byte buffer: correct NIfTI-1 size, but its header-size
field holds 0, not 348. -/
def nifti348Buf : ByteBuf := List.replicate 348 0

/-- Bounds check claim C2 asserts of one stored OBJ face entry: the
normalized vertex index is a nonnegative integer below the vertex
count. -/
def objEntryInBounds (len : ℕ) (e : OBJFaceVertex) : Bool :=
  match e.v with
  | .fin q => decide (0 ≤ q) && decide (q < (len : ℚ))
  | _ => false

/-- The mesh invariant claim C2 asserts of a decoded OBJ: every face
has at least 3 vertex groups and every stored vertex index is in
bounds. -/
def objFacesValid (r : OBJResult) : Bool :=
  r.faces.all (fun f => decide (3 ≤ f.length) && f.all (objEntryInBounds r.vertices.length))

/-- The routing rule claim C4 asserts of the STL dispatch: ASCII if and
only if the first five non-whitespace characters, lowercased, spell
`solid`. -/
def stlRouteClaimC4 (t : String) : Prop :=
  parseSTLRoute t = .ascii ↔
    ((t.data.filter (fun c => !c.isWhitespace)).take 5).map Char.toLower = "solid".data

/-- The header heuristic claim C6 attributes to the CSV decoder: a row
is a header when at least one of its tokens fails numeric coercion. -/
def csvRowLooksHeader (delim : Char) (row : String) : Bool :=
  (splitChar delim row).any (fun t => isNaNb (jsParseFloat t))

/-- Channel names of a CSV decode result, `none` on error. -/
def csvNamesOf : Except JsError CSVEEGResult → Option (List String)
  | .ok r => some r.channelNames
  | .error _ => none

/-- Per-channel sample counts of a CSV decode result, `none` on
error. -/
def csvChannelLengthsOf : Except JsError CSVEEGResult → Option (List ℕ)
  | .ok r => some (r.channels.map List.length)
  | .error _ => none

/-- Header-size field of a NIfTI decode result, `none` on error. -/
def niftiSizeofHdrOf : Except JsError NIfTIResult → Option ℤ
  | .ok r => some r.header.sizeofHdr
  | .error _ => none

/-- Shape summary (vertex count, normal count, declared triangle count)
of a binary STL decode result, `none` on error. -/
def stlStatsOf : Except JsError STLResult → Option (ℕ × ℕ × ℕ)
  | .ok r => some (r.vertices.length, r.normals.length, r.triangleCount)
  | .error _ => none

/-- Normal list laid out as binary STL decoding produces it: every
consecutive triple is three copies of one vector. -/
def normalsGrouped : List (JSNum × JSNum × JSNum) → Prop
  | [] => True
  | a :: b :: c :: rest => a = b ∧ b = c ∧ normalsGrouped rest
  | [_] => False
  | [_, _] => False

/-- Token count of one point-cloud line, exactly as `parseXYZ` splits
it. -/
def xyzTokenCount (l : String) : ℕ := (splitWS (jsTrim l)).length

/-- Length of an optional color list (0 for `null`). -/
def colorsLen : Option (List (JSNum × JSNum × JSNum)) → ℕ
  | none => 0
  | some cs => cs.length

/-! ## Basic lemmas about the embedding primitives -/

theorem exceptBind_eq_ok {ε α β : Type} {x : Except ε α} {f : α → Except ε β} {b : β} :
    x >>= f = .ok b ↔ ∃ a, x = .ok a ∧ f a = .ok b := by
  cases x with
  | ok a => simp [Bind.bind, Except.bind]
  | error e => simp [Bind.bind, Except.bind]

theorem exceptBind_ok {ε α β : Type} (a : α) (f : α → Except ε β) :
    (Except.ok a : Except ε α) >>= f = f a := rfl

theorem exceptBind_error {ε α β : Type} {x : Except ε α} {f : α → Except ε β} {e : ε}
    (h : x = .error e) : x >>= f = .error e := by
  subst h; rfl

theorem getUint8_eq_ok {buf : ByteBuf} {i : ℕ} (h : i < buf.length) :
    getUint8 buf i = .ok (buf.getD i 0) := by
  simp [getUint8, h]

theorem getUint8_eq_error {buf : ByteBuf} {i : ℕ} (h : buf.length ≤ i) :
    getUint8 buf i = .error .rangeError := by
  simp [getUint8, Nat.not_lt.mpr h]

theorem getFloat32_ok (buf : ByteBuf) (off : ℕ) (h : off + 4 ≤ buf.length) :
    ∃ x, getFloat32 buf off = .ok x := by
  unfold getFloat32
  rw [getUint8_eq_ok (by omega), exceptBind_ok, getUint8_eq_ok (by omega), exceptBind_ok,
    getUint8_eq_ok (by omega), exceptBind_ok, getUint8_eq_ok (by omega), exceptBind_ok]
  exact ⟨_, rfl⟩

theorem getFloat32_error {buf : ByteBuf} {off : ℕ} (h : buf.length < off + 4) :
    getFloat32 buf off = .error .rangeError := by
  unfold getFloat32
  by_cases h0 : off < buf.length
  · rw [getUint8_eq_ok h0, exceptBind_ok]
    by_cases h1 : off + 1 < buf.length
    · rw [getUint8_eq_ok h1, exceptBind_ok]
      by_cases h2 : off + 2 < buf.length
      · rw [getUint8_eq_ok h2, exceptBind_ok]
        rw [exceptBind_error (getUint8_eq_error (by omega))]
      · rw [exceptBind_error (getUint8_eq_error (by omega))]
    · rw [exceptBind_error (getUint8_eq_error (by omega))]
  · rw [exceptBind_error (getUint8_eq_error (by omega))]

theorem readVec3_ok (buf : ByteBuf) (off : ℕ) (h : off + 12 ≤ buf.length) :
    ∃ x, readVec3 buf off = .ok x := by
  obtain ⟨x, hx⟩ := getFloat32_ok buf off (by omega)
  obtain ⟨y, hy⟩ := getFloat32_ok buf (off + 4) (by omega)
  obtain ⟨z, hz⟩ := getFloat32_ok buf (off + 8) (by omega)
  exact ⟨(x, y, z), by rw [readVec3, hx, exceptBind_ok, hy, exceptBind_ok, hz, exceptBind_ok]⟩

theorem readVec3_error {buf : ByteBuf} {off : ℕ} (h : buf.length < off + 12) :
    readVec3 buf off = .error .rangeError := by
  unfold readVec3
  by_cases h0 : off + 4 ≤ buf.length
  · obtain ⟨x, hx⟩ := getFloat32_ok buf off h0
    rw [hx, exceptBind_ok]
    by_cases h1 : off + 4 + 4 ≤ buf.length
    · obtain ⟨y, hy⟩ := getFloat32_ok buf (off + 4) h1
      rw [hy, exceptBind_ok]
      rw [exceptBind_error (getFloat32_error (by omega))]
    · rw [exceptBind_error (getFloat32_error (by omega))]
  · rw [exceptBind_error (getFloat32_error (by omega))]

theorem readStringAux_ok {buf : ByteBuf} :
    ∀ (n off : ℕ), off + n ≤ buf.length → ∃ cs, readStringAux buf off n = .ok cs := by
  intro n
  induction n with
  | zero => exact fun _ _ => ⟨[], rfl⟩
  | succ m ih =>
    intro off h
    rw [readStringAux, getUint8_eq_ok (by omega), exceptBind_ok]
    by_cases hz : (buf.getD off 0) == 0
    · exact ⟨[], by rw [if_pos hz]⟩
    · obtain ⟨cs, hcs⟩ := ih (off + 1) (by omega)
      exact ⟨_, by rw [if_neg hz, hcs, exceptBind_ok]⟩

theorem readString_ok (buf : ByteBuf) (off len : ℕ) (h : off + len ≤ buf.length) :
    ∃ s, readString buf off len = .ok s := by
  obtain ⟨cs, hcs⟩ := readStringAux_ok len off h
  exact ⟨String.mk cs, by rw [readString, hcs, exceptBind_ok]⟩

/-! ## Lemmas about the EDF decoder -/

theorem parseEDFFileHeader_fields {buf : ByteBuf} {hd : EDFHeader}
    (h : parseEDFFileHeader buf = .ok hd) :
    ∃ sNR sRD sNS,
      readString buf 236 8 = .ok sNR ∧
      readString buf 244 8 = .ok sRD ∧
      readString buf 252 4 = .ok sNS ∧
      hd.numRecords = jsParseInt sNR ∧
      hd.recordDuration = jsParseFloat sRD ∧
      hd.numSignals = jsParseInt sNS := by
  unfold parseEDFFileHeader at h
  rw [exceptBind_eq_ok] at h
  obtain ⟨version, _, h⟩ := h
  rw [exceptBind_eq_ok] at h
  obtain ⟨patientID, _, h⟩ := h
  rw [exceptBind_eq_ok] at h
  obtain ⟨recordingID, _, h⟩ := h
  rw [exceptBind_eq_ok] at h
  obtain ⟨startDate, _, h⟩ := h
  rw [exceptBind_eq_ok] at h
  obtain ⟨startTime, _, h⟩ := h
  rw [exceptBind_eq_ok] at h
  obtain ⟨headerBytes, _, h⟩ := h
  rw [exceptBind_eq_ok] at h
  obtain ⟨reserved, _, h⟩ := h
  rw [exceptBind_eq_ok] at h
  obtain ⟨numRecords, hNR, h⟩ := h
  rw [exceptBind_eq_ok] at h
  obtain ⟨recordDuration, hRD, h⟩ := h
  rw [exceptBind_eq_ok] at h
  obtain ⟨numSignals, hNS, h⟩ := h
  rw [Except.ok.injEq] at h
  exact ⟨numRecords, recordDuration, numSignals, hNR, hRD, hNS, by rw [← h], by rw [← h], by rw [← h]⟩

theorem parseEDFFileHeader_ok {buf : ByteBuf} (h : 256 ≤ buf.length) :
    ∃ hd, parseEDFFileHeader buf = .ok hd := by
  obtain ⟨s0, h0⟩ := readString_ok buf 0 8 (by omega)
  obtain ⟨s1, h1⟩ := readString_ok buf 8 80 (by omega)
  obtain ⟨s2, h2⟩ := readString_ok buf 88 80 (by omega)
  obtain ⟨s3, h3⟩ := readString_ok buf 168 8 (by omega)
  obtain ⟨s4, h4⟩ := readString_ok buf 176 8 (by omega)
  obtain ⟨s5, h5⟩ := readString_ok buf 184 8 (by omega)
  obtain ⟨s6, h6⟩ := readString_ok buf 192 44 (by omega)
  obtain ⟨s7, h7⟩ := readString_ok buf 236 8 (by omega)
  obtain ⟨s8, h8⟩ := readString_ok buf 244 8 (by omega)
  obtain ⟨s9, h9⟩ := readString_ok buf 252 4 (by omega)
  rw [parseEDFFileHeader, h0, exceptBind_ok, h1, exceptBind_ok, h2, exceptBind_ok,
    h3, exceptBind_ok, h4, exceptBind_ok, h5, exceptBind_ok, h6, exceptBind_ok,
    h7, exceptBind_ok, h8, exceptBind_ok, h9, exceptBind_ok]
  exact ⟨_, rfl⟩

theorem parseEDFSignal_numSamples {buf : ByteBuf} {off : ℕ} {s : EDFSignal}
    (h : parseEDFSignal buf off = .ok s) :
    ∃ sNSamp, readString buf (off + 216) 8 = .ok sNSamp ∧ s.numSamples = jsParseInt sNSamp := by
  unfold parseEDFSignal at h
  rw [exceptBind_eq_ok] at h
  obtain ⟨label, _, h⟩ := h
  rw [exceptBind_eq_ok] at h
  obtain ⟨transducerType, _, h⟩ := h
  rw [exceptBind_eq_ok] at h
  obtain ⟨physicalDimension, _, h⟩ := h
  rw [exceptBind_eq_ok] at h
  obtain ⟨physicalMin, _, h⟩ := h
  rw [exceptBind_eq_ok] at h
  obtain ⟨physicalMax, _, h⟩ := h
  rw [exceptBind_eq_ok] at h
  obtain ⟨digitalMin, _, h⟩ := h
  rw [exceptBind_eq_ok] at h
  obtain ⟨digitalMax, _, h⟩ := h
  rw [exceptBind_eq_ok] at h
  obtain ⟨prefiltering, _, h⟩ := h
  rw [exceptBind_eq_ok] at h
  obtain ⟨numSamples, hNSamp, h⟩ := h
  rw [exceptBind_eq_ok] at h
  obtain ⟨reserved, _, h⟩ := h
  rw [Except.ok.injEq] at h
  exact ⟨numSamples, hNSamp, by rw [← h]⟩

theorem parseEDFSignals_head {buf : ByteBuf} {off k : ℕ} {l : List EDFSignal} {s : EDFSignal}
    (h : parseEDFSignals buf off k = .ok l) (hs : l.head? = some s) :
    parseEDFSignal buf off = .ok s := by
  cases k with
  | zero =>
    rw [parseEDFSignals, Except.ok.injEq] at h
    rw [← h] at hs
    exact absurd hs (by simp)
  | succ m =>
    rw [parseEDFSignals, exceptBind_eq_ok] at h
    obtain ⟨s0, hs0, h⟩ := h
    rw [exceptBind_eq_ok] at h
    obtain ⟨rest, _, h⟩ := h
    rw [Except.ok.injEq] at h
    rw [← h] at hs
    simp only [List.head?_cons, Option.some.injEq] at hs
    rw [← hs]
    exact hs0

/-! ## Claim C1 -/

/-- C1: for every successfully decoded EDF buffer, the derived metadata
satisfies `sampleRate = firstSignalSampleCount / recordDuration` and
`duration = recordCount * recordDuration`, where the operands are
exactly the values parsed from the fixed-offset ASCII header fields
(first signal's per-record sample count at byte 472, record duration at
byte 244, record count at byte 236). -/
theorem C1_edf_derived_metadata (buf : ByteBuf) (h : isOkE (parseEDF buf) = true) :
    ∃ (r : EDFResult) (sNSamp sRD sNR : String),
      parseEDF buf = .ok r ∧
      readString buf 472 8 = .ok sNSamp ∧
      readString buf 244 8 = .ok sRD ∧
      readString buf 236 8 = .ok sNR ∧
      r.sampleRate = jsDiv (jsParseInt sNSamp) (jsParseFloat sRD) ∧
      r.duration = jsMul (jsParseInt sNR) (jsParseFloat sRD) := by
  cases hp : parseEDF buf with
  | error e => rw [hp] at h; exact absurd h (by simp [isOkE])
  | ok r =>
    have hp2 := hp
    unfold parseEDF at hp2
    rw [exceptBind_eq_ok] at hp2
    obtain ⟨hd, hhd, hp2⟩ := hp2
    rw [exceptBind_eq_ok] at hp2
    obtain ⟨signals, hsig, hp2⟩ := hp2
    cases hh : signals.head? with
    | none => rw [hh] at hp2; exact absurd hp2 (by simp)
    | some sig0 =>
      rw [hh] at hp2
      simp only [Except.ok.injEq] at hp2
      obtain ⟨sNSamp, hrNSamp, hNSamp⟩ := parseEDFSignal_numSamples (parseEDFSignals_head hsig hh)
      obtain ⟨sNR, sRD, sNS, hrNR, hrRD, hrNS, hfNR, hfRD, hfNS⟩ := parseEDFFileHeader_fields hhd
      norm_num at hrNSamp
      refine ⟨r, sNSamp, sRD, sNR, rfl, hrNSamp, hrRD, hrNR, ?_, ?_⟩
      · rw [← hp2, hNSamp, hfRD]
      · rw [← hp2, hfNR, hfRD]

/-- C1 witness: the theorem applied to a concrete well-formed EDF
buffer (10 records of 2 seconds, one signal with 100 samples per
record). -/
theorem C1_edf_derived_metadata_witness :
    ∃ (r : EDFResult) (sNSamp sRD sNR : String),
      parseEDF edfBuf1 = .ok r ∧
      readString edfBuf1 472 8 = .ok sNSamp ∧
      readString edfBuf1 244 8 = .ok sRD ∧
      readString edfBuf1 236 8 = .ok sNR ∧
      r.sampleRate = jsDiv (jsParseInt sNSamp) (jsParseFloat sRD) ∧
      r.duration = jsMul (jsParseInt sNR) (jsParseFloat sRD) :=
  C1_edf_derived_metadata edfBuf1 (by decide)

/-! ## Claim C8 -/

/-- C8 counterexample: a 256-byte EDF buffer whose signal-count field
reads `"0   "` (zero signals) does not decode successfully, contrary to
the claim that zero signals yields an empty channel set. -/
theorem C8_counterexample :
    readString edfBuf0 252 4 = .ok "0   " ∧
    jsParseInt "0   " = .fin 0 ∧
    isOkE (parseEDF edfBuf0) = false := by decide

/-- C8 amended: an EDF buffer whose header parses with a declared
signal count of zero (or NaN, or negative — any count producing zero
loop iterations) fails to decode with a `TypeError`: the derived
sample-rate computation dereferences `signals[0]` of the empty signal
list.  Zero signals is a failure mode, not an empty channel set. -/
theorem C8_zero_signals_fails (buf : ByteBuf) (s : String)
    (h1 : 256 ≤ buf.length) (h2 : readString buf 252 4 = .ok s)
    (h3 : jsLoopCount (jsParseInt s) = 0) :
    parseEDF buf = .error .typeError := by
  obtain ⟨hd, hhd⟩ := parseEDFFileHeader_ok h1
  obtain ⟨sNR, sRD, sNS, hrNR, hrRD, hrNS, hfNR, hfRD, hfNS⟩ := parseEDFFileHeader_fields hhd
  have hs : sNS = s := by
    rw [h2] at hrNS
    exact (Except.ok.inj hrNS).symm
  have hcount : jsLoopCount hd.numSignals = 0 := by rw [hfNS, hs, h3]
  unfold parseEDF
  rw [hhd, exceptBind_ok, hcount]
  have hnil : parseEDFSignals buf 256 0 = .ok [] := rfl
  rw [hnil, exceptBind_ok]
  rfl

/-- C8 amended witness: the amended theorem applied to the concrete
zero-signal buffer. -/
theorem C8_zero_signals_fails_witness : parseEDF edfBuf0 = .error .typeError :=
  C8_zero_signals_fails edfBuf0 "0   " (by decide) (by decide) (by decide)

/-! ## Claim C5 -/

/-- C5: the modality classifier is total and honours its static
extension table: any extension appearing in the table is classified by
the table (first matching category), whatever the MIME type;
`.nii.gz` is recognized as a two-part extension; an unknown extension
with MIME `audio/mpeg` is Audio; an unknown extension with empty MIME
is the Opaque fallback (`generic`). -/
theorem C5_classifier_table_and_fallback :
    (∀ ext mime : String, supportedFormats.any (fun p => p.2.contains ext) = true →
      ∃ p, p ∈ supportedFormats ∧ p.2.contains ext = true ∧ detectDataType ext mime = p.1) ∧
    getFileExtension "brain.nii.gz" = ".nii.gz" ∧
    detectFromFile "brain.nii.gz" "" = "neuroimaging" ∧
    detectFromFile "song.qqq" "audio/mpeg" = "audio" ∧
    detectFromFile "file.qqq" "" = "generic" := by
  refine ⟨?_, by decide, by decide, by decide, by decide⟩
  intro ext mime h
  rw [List.any_eq_true] at h
  obtain ⟨x, hx, hpx⟩ := h
  have hsome : (supportedFormats.find? (fun p => p.2.contains ext)).isSome := by
    rw [List.find?_isSome]
    exact ⟨x, hx, hpx⟩
  obtain ⟨q, hq⟩ := Option.isSome_iff_exists.mp hsome
  have hpq : q.2.contains ext = true := by
    have h2 := List.find?_some hq
    simpa using h2
  refine ⟨q, List.mem_of_find?_eq_some hq, hpq, ?_⟩
  unfold detectDataType
  rw [hq]

/-- C5 witness: the table part of the theorem applied to the `.edf`
extension (classified `eeg` regardless of MIME type). -/
theorem C5_classifier_witness :
    ∃ p, p ∈ supportedFormats ∧ p.2.contains ".edf" = true ∧
      detectDataType ".edf" "application/octet-stream" = p.1 :=
  C5_classifier_table_and_fallback.1 ".edf" "application/octet-stream" (by decide)

/-! ## Claim C10 -/

/-- C10: a filename with extension `.csv` or `.txt` is always
classified `eeg` (the `eeg` table entry precedes `timeseries` and the
first match wins), never `timeseries`, regardless of MIME type, and is
therefore routed to the CSV-as-EEG decoder. -/
theorem C10_csv_txt_always_eeg (name mime : String)
    (h : getFileExtension name = ".csv" ∨ getFileExtension name = ".txt") :
    detectDataType (getFileExtension name) mime = "eeg" ∧
    detectDataType (getFileExtension name) mime ≠ "timeseries" ∧
    parseRoute name mime = .csvAsEEG := by
  unfold parseRoute
  rcases h with h | h <;> rw [h]
  · exact ⟨rfl, fun hc => absurd (show ("eeg" : String) = "timeseries" from hc) (by decide), rfl⟩
  · exact ⟨rfl, fun hc => absurd (show ("eeg" : String) = "timeseries" from hc) (by decide), rfl⟩

/-- C10 witness: the theorem applied to a `.csv` filename carrying a
time-series MIME type. -/
theorem C10_csv_txt_always_eeg_witness :
    detectDataType (getFileExtension "data.csv") "text/csv" = "eeg" ∧
    detectDataType (getFileExtension "data.csv") "text/csv" ≠ "timeseries" ∧
    parseRoute "data.csv" "text/csv" = .csvAsEEG :=
  C10_csv_txt_always_eeg "data.csv" "text/csv" (Or.inl (by decide))

/-! ## Claim C4 -/

theorem listStartsWith_iff :
    ∀ (pat cs : List Char), listStartsWith cs pat = true ↔ cs.take pat.length = pat
  | [], cs => by simp [listStartsWith]
  | p :: ps, [] => by simp [listStartsWith]
  | p :: ps, c :: cs => by
    rw [List.length_cons, List.take_succ_cons,
      show listStartsWith (c :: cs) (p :: ps) = (c == p && listStartsWith cs ps) from rfl,
      Bool.and_eq_true, beq_iff_eq, listStartsWith_iff ps cs]
    constructor
    · rintro ⟨h1, h2⟩
      rw [h1, h2]
    · intro h
      injection h with h1 h2
      exact ⟨h1, by rw [h2]⟩

/-- C4 counterexample: a buffer beginning with one space before `solid`
has `solid` as its first five non-whitespace characters, yet the
decoder routes it to the binary branch, refuting the claimed dispatch
rule. -/
theorem C4_counterexample : ¬ stlRouteClaimC4 " solid endsolid" := by
  unfold stlRouteClaimC4
  decide

/-- C4 amended: the STL dispatch sends a buffer to the ASCII decoder
if and only if its first five raw characters (no whitespace skipping),
lowercased, spell `solid`; every other buffer goes to the binary
decoder. -/
theorem C4_stl_dispatch_literal (t : String) :
    parseSTLRoute t = .ascii ↔ (t.data.map Char.toLower).take 5 = "solid".data := by
  have h5 : ("solid".data).length = 5 := by decide
  rw [← h5, ← listStartsWith_iff]
  unfold parseSTLRoute jsStartsWith jsToLowerCase
  by_cases hb : listStartsWith (t.data.map Char.toLower) "solid".data = true
  · simp [hb]
  · simp [hb]

/-! ## Claim C7 -/

theorem getUint32_ok (buf : ByteBuf) (off : ℕ) (h : off + 4 ≤ buf.length) :
    ∃ x, getUint32 buf off = .ok x := by
  unfold getUint32
  rw [getUint8_eq_ok (by omega), exceptBind_ok, getUint8_eq_ok (by omega), exceptBind_ok,
    getUint8_eq_ok (by omega), exceptBind_ok, getUint8_eq_ok (by omega), exceptBind_ok]
  exact ⟨_, rfl⟩

theorem getInt32_ok (buf : ByteBuf) (off : ℕ) (h : off + 4 ≤ buf.length) :
    ∃ x, getInt32 buf off = .ok x := by
  obtain ⟨u, hu⟩ := getUint32_ok buf off h
  exact ⟨_, by rw [getInt32, hu, exceptBind_ok]⟩

theorem getInt16_ok (buf : ByteBuf) (off : ℕ) (h : off + 2 ≤ buf.length) :
    ∃ x, getInt16 buf off = .ok x := by
  unfold getInt16
  rw [getUint8_eq_ok (by omega), exceptBind_ok, getUint8_eq_ok (by omega), exceptBind_ok]
  exact ⟨_, rfl⟩

theorem readInt16List_ok (buf : ByteBuf) :
    ∀ (k off : ℕ), off + 2 * k ≤ buf.length → ∃ l, readInt16List buf off k = .ok l := by
  intro k
  induction k with
  | zero => exact fun off _ => ⟨[], rfl⟩
  | succ m ih =>
    intro off h
    obtain ⟨x, hx⟩ := getInt16_ok buf off (by omega)
    obtain ⟨l, hl⟩ := ih (off + 2) (by omega)
    exact ⟨x :: l, by rw [readInt16List, hx, exceptBind_ok, hl, exceptBind_ok]⟩

theorem readFloat32List_ok (buf : ByteBuf) :
    ∀ (k off : ℕ), off + 4 * k ≤ buf.length → ∃ l, readFloat32List buf off k = .ok l := by
  intro k
  induction k with
  | zero => exact fun off _ => ⟨[], rfl⟩
  | succ m ih =>
    intro off h
    obtain ⟨x, hx⟩ := getFloat32_ok buf off (by omega)
    obtain ⟨l, hl⟩ := ih (off + 4) (by omega)
    exact ⟨x :: l, by rw [readFloat32List, hx, exceptBind_ok, hl, exceptBind_ok]⟩

/-- C7 counterexample: the all-zero 348-byte buffer has a header-size
field of 0, not 348, yet `parseNIfTI` accepts it and returns a volume
result — there is no `UnsupportedVariant` rejection. -/
theorem C7_counterexample :
    niftiSizeofHdrOf (parseNIfTI nifti348Buf) = some 0 ∧ (0 : ℤ) ≠ 348 := by decide

/-- C7 amended: `parseNIfTI` reads the header-size field but never
validates it: every buffer of at least 120 bytes (enough for all fixed
reads) decodes successfully, whatever the field holds, and the field is
stored verbatim in the result. -/
theorem C7_no_header_size_validation (buf : ByteBuf) (h : 120 ≤ buf.length) :
    ∃ r, parseNIfTI buf = .ok r ∧ getInt32 buf 0 = .ok r.header.sizeofHdr := by
  obtain ⟨sz, hsz⟩ := getInt32_ok buf 0 (by omega)
  obtain ⟨dim, hdim⟩ := readInt16List_ok buf 8 40 (by omega)
  obtain ⟨dt, hdt⟩ := getInt16_ok buf 70 (by omega)
  obtain ⟨bp, hbp⟩ := getInt16_ok buf 72 (by omega)
  obtain ⟨pd, hpd⟩ := readFloat32List_ok buf 8 76 (by omega)
  obtain ⟨vo, hvo⟩ := getFloat32_ok buf 108 (by omega)
  obtain ⟨ss, hss⟩ := getFloat32_ok buf 112 (by omega)
  obtain ⟨si, hsi⟩ := getFloat32_ok buf 116 (by omega)
  rw [parseNIfTI, hsz, exceptBind_ok, hdim, exceptBind_ok, hdt, exceptBind_ok,
    hbp, exceptBind_ok, hpd, exceptBind_ok, hvo, exceptBind_ok, hss, exceptBind_ok,
    hsi, exceptBind_ok]
  exact ⟨_, rfl, rfl⟩

/-- C7 amended witness: the amended theorem applied to the all-zero
348-byte buffer. -/
theorem C7_no_header_size_validation_witness :
    ∃ r, parseNIfTI nifti348Buf = .ok r ∧ getInt32 nifti348Buf 0 = .ok r.header.sizeofHdr :=
  C7_no_header_size_validation nifti348Buf (by decide)

/-! ## Claim C2 -/

theorem parseOBJLine_faces_sub {acc : OBJResult} {line : String} {f : List OBJFaceVertex}
    (hf : f ∈ (parseOBJLine acc line).faces) :
    f ∈ acc.faces ∨ ∃ toks : List String, f = toks.map parseOBJFaceVertex := by
  simp only [parseOBJLine] at hf
  split at hf
  · exact Or.inl hf
  · split at hf
    · exact Or.inl hf
    · split at hf
      · exact Or.inl hf
      · split at hf
        · have hf2 : f ∈ acc.faces ++
              [((splitWS (jsTrim line)).drop 1).map parseOBJFaceVertex] := hf
          rw [List.mem_append] at hf2
          rcases hf2 with h | h
          · exact Or.inl h
          · rw [List.mem_singleton] at h
            exact Or.inr ⟨_, h⟩
        · exact Or.inl hf

theorem parseOBJ_faces_from_tokens :
    ∀ (lines : List String) (acc : OBJResult),
      (∀ f ∈ acc.faces, ∃ toks : List String, f = toks.map parseOBJFaceVertex) →
      ∀ f ∈ (lines.foldl parseOBJLine acc).faces,
        ∃ toks : List String, f = toks.map parseOBJFaceVertex := by
  intro lines
  induction lines with
  | nil => intro acc hacc; exact hacc
  | cons l ls ih =>
    intro acc hacc
    rw [List.foldl_cons]
    apply ih
    intro f hf
    rcases parseOBJLine_faces_sub hf with h | h
    · exact hacc f h
    · exact h

/-- C2 counterexample: the OBJ text `v 0 0 0` + `f 9` has one vertex
and a face of a single group referencing normalized index 8, far out of
bounds — but decoding succeeds and stores the face, with no
`InvalidGeometry` error for either the arity or the range violation. -/
theorem C2_counterexample : ¬ objFacesValid (parseOBJ "v 0 0 0\nf 9") = true := by
  with_unfolding_all decide

/-- C2 amended: OBJ faces are normalized from 1-based to 0-based at
decode time — every stored face entry is `parseInt(token) - 1` applied
to some face token — but the decoder validates nothing: a face with a
single vertex group whose normalized index 8 lies outside the one-entry
vertex list is stored without error. -/
theorem C2_obj_normalized_unvalidated :
    (∀ (text : String), ∀ f ∈ (parseOBJ text).faces, ∀ e ∈ f,
        ∃ tok : String, e = parseOBJFaceVertex tok) ∧
    (parseOBJ "v 0 0 0\nf 9").faces = [[{ v := .fin 8, vt := none, vn := none }]] ∧
    (parseOBJ "v 0 0 0\nf 9").vertices.length = 1 := by
  refine ⟨?_, by with_unfolding_all decide, by decide⟩
  intro text f hf e he
  unfold parseOBJ at hf
  obtain ⟨toks, htoks⟩ :=
    parseOBJ_faces_from_tokens _ _ (by intro f hf0; exact absurd hf0 (List.not_mem_nil f)) f hf
  subst htoks
  rw [List.mem_map] at he
  obtain ⟨tok, _, htok⟩ := he
  exact ⟨tok, htok.symm⟩

/-- C2 amended witness: the out-of-range face entry of the
counterexample input arises as the normalization of a face token. -/
theorem C2_obj_normalized_unvalidated_witness :
    ∃ tok : String,
      ({ v := .fin 8, vt := none, vn := none } : OBJFaceVertex) = parseOBJFaceVertex tok :=
  C2_obj_normalized_unvalidated.1 "v 0 0 0\nf 9"
    [{ v := .fin 8, vt := none, vn := none }] (by with_unfolding_all decide)
    { v := .fin 8, vt := none, vn := none } (by with_unfolding_all decide)

/-! ## Claim C3 -/

theorem parseSTLTriangles_ok (buf : ByteBuf) :
    ∀ (k off : ℕ), off + 50 * k ≤ buf.length →
      ∃ vs ns, parseSTLTriangles buf off k = .ok (vs, ns) ∧
        vs.length = 3 * k ∧ ns.length = 3 * k ∧ normalsGrouped ns := by
  intro k
  induction k with
  | zero => exact fun off _ => ⟨[], [], rfl, rfl, rfl, trivial⟩
  | succ m ih =>
    intro off h
    obtain ⟨n, hn⟩ := readVec3_ok buf off (by omega)
    obtain ⟨v0, hv0⟩ := readVec3_ok buf (off + 12) (by omega)
    obtain ⟨v1, hv1⟩ := readVec3_ok buf (off + 24) (by omega)
    obtain ⟨v2, hv2⟩ := readVec3_ok buf (off + 36) (by omega)
    obtain ⟨vs, ns, hrec, hlv, hln, hg⟩ := ih (off + 50) (by omega)
    refine ⟨v0 :: v1 :: v2 :: vs, n :: n :: n :: ns, ?_, ?_, ?_, ⟨rfl, rfl, hg⟩⟩
    · rw [parseSTLTriangles, hn, exceptBind_ok, hv0, exceptBind_ok, hv1, exceptBind_ok,
        hv2, exceptBind_ok, hrec, exceptBind_ok]
    · simp only [List.length_cons, hlv]
      omega
    · simp only [List.length_cons, hln]
      omega

theorem parseSTLTriangles_error (buf : ByteBuf) :
    ∀ (k off : ℕ), 1 ≤ k → buf.length < off + 48 + 50 * (k - 1) →
      parseSTLTriangles buf off k = .error .rangeError := by
  intro k
  induction k with
  | zero => intro off h0 _; exact absurd h0 (by decide)
  | succ m ih =>
    intro off _ hlen
    simp only [Nat.add_sub_cancel] at hlen
    by_cases hfit : off + 48 ≤ buf.length
    · have hm : 1 ≤ m := by omega
      obtain ⟨n, hn⟩ := readVec3_ok buf off (by omega)
      obtain ⟨v0, hv0⟩ := readVec3_ok buf (off + 12) (by omega)
      obtain ⟨v1, hv1⟩ := readVec3_ok buf (off + 24) (by omega)
      obtain ⟨v2, hv2⟩ := readVec3_ok buf (off + 36) (by omega)
      rw [parseSTLTriangles, hn, exceptBind_ok, hv0, exceptBind_ok, hv1, exceptBind_ok,
        hv2, exceptBind_ok]
      rw [exceptBind_error (ih (off + 50) hm (by omega))]
    · rw [parseSTLTriangles]
      by_cases h0 : off + 12 ≤ buf.length
      · obtain ⟨n, hn⟩ := readVec3_ok buf off h0
        rw [hn, exceptBind_ok]
        by_cases h1 : off + 24 ≤ buf.length
        · obtain ⟨v0, hv0⟩ := readVec3_ok buf (off + 12) (by omega)
          rw [hv0, exceptBind_ok]
          by_cases h2 : off + 36 ≤ buf.length
          · obtain ⟨v1, hv1⟩ := readVec3_ok buf (off + 24) (by omega)
            rw [hv1, exceptBind_ok]
            rw [exceptBind_error (readVec3_error (by omega))]
          · rw [exceptBind_error (readVec3_error (by omega))]
        · rw [exceptBind_error (readVec3_error (by omega))]
      · rw [exceptBind_error (readVec3_error (by omega))]

/-- C3 counterexample: a binary STL buffer declaring 1 triangle but 132
bytes long claims more data (134 bytes) than it contains, yet decodes
successfully to 1 triangle — the 2 trailing attribute bytes are skipped
by offset arithmetic, never read, so no `TruncatedInput` arises. -/
theorem C3_counterexample :
    getUint32 stlSlackBuf 80 = .ok 1 ∧
    stlSlackBuf.length = 132 ∧
    stlStatsOf (parseSTLBinary stlSlackBuf) = some (3, 3, 1) :=
  ⟨by decide, by decide, by with_unfolding_all decide⟩

/-- C3 amended: with declared triangle count `N`, a buffer of length at
least `84 + 50N` decodes to exactly `N` triangles (`3N` vertices, `3N`
normals, each triangle's three normals identical); the decode fails
with a `RangeError` (`TruncatedInput`) exactly when some float32 read
falls outside the buffer, i.e. when the length is below `82 + 50N`
(for `N ≥ 1`) — a buffer missing only the final triangle's 2 attribute
bytes still decodes successfully because those bytes are never read. -/
theorem C3_stl_binary_triangles (buf : ByteBuf) (N : ℕ)
    (hN : getUint32 buf 80 = .ok N) :
    (84 + 50 * N ≤ buf.length →
      ∃ r, parseSTLBinary buf = .ok r ∧ r.triangleCount = N ∧
        r.vertices.length = 3 * N ∧ r.normals.length = 3 * N ∧ normalsGrouped r.normals) ∧
    (1 ≤ N → buf.length < 82 + 50 * N → parseSTLBinary buf = .error .rangeError) := by
  constructor
  · intro h
    obtain ⟨vs, ns, hp, hlv, hln, hg⟩ := parseSTLTriangles_ok buf N 84 (by omega)
    refine ⟨{ vertices := vs, normals := ns, triangleCount := N }, ?_, rfl, hlv, hln, hg⟩
    rw [parseSTLBinary, hN, exceptBind_ok, hp, exceptBind_ok]
  · intro h1 h2
    rw [parseSTLBinary, hN, exceptBind_ok]
    rw [exceptBind_error (parseSTLTriangles_error buf N 84 h1 (by omega))]

/-- C3 amended witness: the success part applied to a complete 2-triangle
binary STL buffer. -/
theorem C3_stl_binary_triangles_witness :
    ∃ r, parseSTLBinary stlFullBuf = .ok r ∧ r.triangleCount = 2 ∧
      r.vertices.length = 3 * 2 ∧ r.normals.length = 3 * 2 ∧ normalsGrouped r.normals :=
  (C3_stl_binary_triangles stlFullBuf 2 (by decide)).1 (by decide)

/-! ## Claim C9 -/

theorem xyzStep_fst_length
    (acc : List (JSNum × JSNum × JSNum) × List (JSNum × JSNum × JSNum)) (l : String) :
    (xyzStep acc l).1.length = acc.1.length + (if 3 ≤ xyzTokenCount l then 1 else 0) := by
  simp only [xyzStep, List.length_map]
  by_cases h : 3 ≤ xyzTokenCount l
  · rw [if_pos (show 3 ≤ ((splitWS (jsTrim l))).length from h), if_pos h]
    simp
  · rw [if_neg (show ¬ 3 ≤ ((splitWS (jsTrim l))).length from h), if_neg h]
    simp

theorem xyzStep_snd_length
    (acc : List (JSNum × JSNum × JSNum) × List (JSNum × JSNum × JSNum)) (l : String) :
    (xyzStep acc l).2.length = acc.2.length + (if 6 ≤ xyzTokenCount l then 1 else 0) := by
  simp only [xyzStep, List.length_map]
  by_cases h3 : 3 ≤ xyzTokenCount l
  · rw [if_pos (show 3 ≤ ((splitWS (jsTrim l))).length from h3)]
    by_cases h6 : 6 ≤ xyzTokenCount l
    · rw [if_pos (show 6 ≤ ((splitWS (jsTrim l))).length from h6), if_pos h6]
      simp
    · rw [if_neg (show ¬ 6 ≤ ((splitWS (jsTrim l))).length from h6), if_neg h6]
      simp
  · rw [if_neg (show ¬ 3 ≤ ((splitWS (jsTrim l))).length from h3),
      if_neg (show ¬ 6 ≤ xyzTokenCount l from by unfold xyzTokenCount at h3 ⊢; omega)]
    simp

theorem xyzFold_lengths :
    ∀ (lines : List String)
      (acc : List (JSNum × JSNum × JSNum) × List (JSNum × JSNum × JSNum)),
      (lines.foldl xyzStep acc).1.length =
        acc.1.length + lines.countP (fun l => decide (3 ≤ xyzTokenCount l)) ∧
      (lines.foldl xyzStep acc).2.length =
        acc.2.length + lines.countP (fun l => decide (6 ≤ xyzTokenCount l)) := by
  intro lines
  induction lines with
  | nil => intro acc; simp
  | cons l ls ih =>
    intro acc
    rw [List.foldl_cons, List.countP_cons, List.countP_cons]
    obtain ⟨ih1, ih2⟩ := ih (xyzStep acc l)
    constructor
    · rw [ih1, xyzStep_fst_length]
      by_cases h : 3 ≤ xyzTokenCount l <;> (simp [h]; try omega)
    · rw [ih2, xyzStep_snd_length]
      by_cases h : 6 ≤ xyzTokenCount l <;> (simp [h]; try omega)

/-- C9 counterexample: an XYZ file with one 6-token line and one
3-token line yields 2 points but a non-null color list of length 1 —
the color list is present yet shorter than the point list, violating
the claimed parallel-array invariant. -/
theorem C9_counterexample :
    (parseXYZ "1 2 3 4 5 6\n7 8 9").colors = some [(.fin 4, .fin 5, .fin 6)] ∧
    colorsLen (parseXYZ "1 2 3 4 5 6\n7 8 9").colors = 1 ∧
    (parseXYZ "1 2 3 4 5 6\n7 8 9").points.length = 2 := by
  with_unfolding_all decide

/-- C9 amended: the point list has one entry per non-blank line with at
least 3 tokens and the color list one entry per line with at least 6
tokens, so the color list (null exactly when no line has 6 tokens) can
be shorter than, but never longer than, the point list; tokens 4 to 6 of
a 6-token line become that point's RGB color (concrete conjunct).
Lines with fewer than 3 tokens (numeric or not) are skipped. -/
theorem C9_xyz_parallel_arrays (text : String) :
    (parseXYZ text).points.length =
        (nonBlankLines text).countP (fun l => decide (3 ≤ xyzTokenCount l)) ∧
    colorsLen (parseXYZ text).colors =
        (nonBlankLines text).countP (fun l => decide (6 ≤ xyzTokenCount l)) ∧
    ((parseXYZ text).colors = none ↔
        (nonBlankLines text).countP (fun l => decide (6 ≤ xyzTokenCount l)) = 0) ∧
    colorsLen (parseXYZ text).colors ≤ (parseXYZ text).points.length ∧
    parseXYZ "1 2 3 4 5 6" =
      { points := [(.fin 1, .fin 2, .fin 3)], colors := some [(.fin 4, .fin 5, .fin 6)],
        pointCount := 1 } := by
  obtain ⟨h1, h2⟩ := xyzFold_lengths (nonBlankLines text) ([], [])
  simp only [List.length_nil, Nat.zero_add] at h1 h2
  have hpts : (parseXYZ text).points = ((nonBlankLines text).foldl xyzStep ([], [])).1 := rfl
  have hcols : (parseXYZ text).colors =
      (if 0 < ((nonBlankLines text).foldl xyzStep ([], [])).2.length then
        some ((nonBlankLines text).foldl xyzStep ([], [])).2 else none) := rfl
  have hmono : (nonBlankLines text).countP (fun l => decide (6 ≤ xyzTokenCount l)) ≤
      (nonBlankLines text).countP (fun l => decide (3 ≤ xyzTokenCount l)) := by
    apply List.countP_mono_left
    intro l _ hl
    rw [decide_eq_true_eq] at hl ⊢
    omega
  refine ⟨by rw [hpts, h1], ?_, ?_, ?_, by with_unfolding_all decide⟩
  · rw [hcols]
    by_cases hc : 0 < ((nonBlankLines text).foldl xyzStep ([], [])).2.length
    · rw [if_pos hc]
      rw [show colorsLen (some ((nonBlankLines text).foldl xyzStep ([], [])).2) =
        ((nonBlankLines text).foldl xyzStep ([], [])).2.length from rfl, h2]
    · rw [if_neg hc]
      rw [show colorsLen none = 0 from rfl]
      omega
  · rw [hcols]
    by_cases hc : 0 < ((nonBlankLines text).foldl xyzStep ([], [])).2.length
    · rw [if_pos hc]
      constructor
      · intro hn
        exact absurd hn (by simp)
      · intro hz
        rw [← h2] at hz
        omega
    · rw [if_neg hc]
      constructor
      · intro _
        rw [← h2]
        omega
      · intro _
        rfl
  · rw [hcols, hpts, h1]
    by_cases hc : 0 < ((nonBlankLines text).foldl xyzStep ([], [])).2.length
    · rw [if_pos hc]
      rw [show colorsLen (some ((nonBlankLines text).foldl xyzStep ([], [])).2) =
        ((nonBlankLines text).foldl xyzStep ([], [])).2.length from rfl, h2]
      exact hmono
    · rw [if_neg hc]
      rw [show colorsLen none = 0 from rfl]
      omega

/-! ## Claim C6 -/

theorem pushRow_length :
    ∀ (channels : List (List JSNum)) (values : List JSNum),
      (pushRow values channels).length = channels.length := by
  intro channels
  induction channels with
  | nil => intro values; cases values <;> rfl
  | cons ch chs ih =>
    intro values
    cases values with
    | nil =>
      rw [show pushRow [] (ch :: chs) = ch :: pushRow [] chs from rfl]
      simp [ih]
    | cons v vs =>
      rw [show pushRow (v :: vs) (ch :: chs) =
        (if isNaNb v then ch else ch ++ [v]) :: pushRow vs chs from rfl]
      simp [ih]

theorem pushRow_lengths_full :
    ∀ (channels : List (List JSNum)) (values : List JSNum),
      channels.length ≤ values.length →
      (∀ v ∈ values, isNaNb v = false) →
      (pushRow values channels).map List.length = channels.map (fun ch => ch.length + 1) := by
  intro channels
  induction channels with
  | nil => intro values _ _; cases values <;> rfl
  | cons ch chs ih =>
    intro values hlen hnan
    cases values with
    | nil => simp at hlen
    | cons v vs =>
      rw [show pushRow (v :: vs) (ch :: chs) =
        (if isNaNb v then ch else ch ++ [v]) :: pushRow vs chs from rfl]
      rw [hnan v (List.mem_cons_self v vs), if_neg (by simp)]
      rw [List.map_cons, List.map_cons,
        ih vs (by simpa using hlen) (fun w hw => hnan w (List.mem_cons_of_mem v hw))]
      simp

theorem csvFold_lengths (delim : Char) :
    ∀ (rows : List String) (channels : List (List JSNum)),
      (∀ line ∈ rows, channels.length ≤ (splitChar delim line).length ∧
          ∀ t ∈ splitChar delim line, isNaNb (jsParseFloat t) = false) →
      (rows.foldl (fun chs line => pushRow ((splitChar delim line).map jsParseFloat) chs)
          channels).map List.length =
        channels.map (fun ch => ch.length + rows.length) := by
  intro rows
  induction rows with
  | nil => intro channels _; simp
  | cons row rs ih =>
    intro channels h
    rw [List.foldl_cons]
    have hrow := h row (List.mem_cons_self row rs)
    have hstep : (pushRow ((splitChar delim row).map jsParseFloat) channels).map List.length =
        channels.map (fun ch => ch.length + 1) := by
      apply pushRow_lengths_full
      · rw [List.length_map]
        exact hrow.1
      · intro v hv
        rw [List.mem_map] at hv
        obtain ⟨t, ht, htv⟩ := hv
        rw [← htv]
        exact hrow.2 t ht
    have hcond : ∀ line ∈ rs,
        (pushRow ((splitChar delim row).map jsParseFloat) channels).length ≤
          (splitChar delim line).length ∧
        ∀ t ∈ splitChar delim line, isNaNb (jsParseFloat t) = false := by
      intro line hl
      rw [pushRow_length]
      exact h line (List.mem_cons_of_mem row hl)
    calc ((rs.foldl (fun chs line => pushRow ((splitChar delim line).map jsParseFloat) chs)
            (pushRow ((splitChar delim row).map jsParseFloat) channels)).map List.length)
        = (pushRow ((splitChar delim row).map jsParseFloat) channels).map
            (fun ch => ch.length + rs.length) := ih _ hcond
      _ = ((pushRow ((splitChar delim row).map jsParseFloat) channels).map List.length).map
            (fun n => n + rs.length) := by rw [List.map_map]; rfl
      _ = (channels.map (fun ch => ch.length + 1)).map (fun n => n + rs.length) := by
            rw [hstep]
      _ = channels.map (fun ch => ch.length + (row :: rs).length) := by
            rw [List.map_map]
            apply List.map_congr_left
            intro ch _
            simp
            omega

theorem parseCSVLines_header_names_lengths (rest : List String)
    (hrows : ∀ line ∈ rest, (splitChar ',' line).length = 2 ∧
        ∀ t ∈ splitChar ',' line, isNaNb (jsParseFloat t) = false) :
    (parseCSVLines ',' "time,value" rest).channelNames = ["time", "value"] ∧
    (parseCSVLines ',' "time,value" rest).channels.map List.length =
      [rest.length, rest.length] := by
  have hsplit : splitChar ',' "time,value" = ["time", "value"] := by decide
  have hhd : isNaNb (jsParseFloat ((["time", "value"] : List String).getD 0 "")) = true := by
    decide
  have hfold := csvFold_lengths ',' rest [[], []]
    (fun line hl => ⟨by rw [(hrows line hl).1]; decide, (hrows line hl).2⟩)
  constructor
  · simp only [parseCSVLines, hsplit, hhd, if_true]
  · simp only [parseCSVLines, hsplit, hhd, if_true]
    rw [show (List.replicate (["time", "value"] : List String).length ([] : List JSNum)) =
      [[], []] from rfl]
    rw [hfold]
    simp

theorem parseCSVLines_noheader_names (delim : Char) (l0 : String) (rest : List String)
    (h : isNaNb (jsParseFloat ((splitChar delim l0).getD 0 "")) = false) :
    (parseCSVLines delim l0 rest).channelNames =
      (splitChar delim l0).mapIdx (fun i _ => "Ch" ++ toString (i + 1)) := by
  simp only [parseCSVLines, h]
  rfl

/-- C6 counterexample: the first row `1,foo` has a token (`foo`) that
fails numeric coercion, so under the claimed heuristic it would be a
header row; the decoder nevertheless treats the file as headerless
(synthetic `Ch1, Ch2` names) because only the first token `1` is
tested. -/
theorem C6_counterexample :
    csvRowLooksHeader ',' "1,foo" = true ∧
    csvNamesOf (parseCSVasEEG "1,foo\n2,3") = some ["Ch1", "Ch2"] := by decide

/-- C6 amended: a `time,value` CSV with numeric rows decodes to the 2
named columns `time`, `value` with one sample per data row (N = lines
minus 1); a file whose first row's FIRST token parses as a number is
treated as headerless with synthetic `Ch1, Ch2, …` names — the header
test examines only the first token of the first row, not every
token. -/
theorem C6_csv_header_detection :
    (∀ (text : String) (rest : List String),
        nonBlankLines text = "time,value" :: rest →
        jsIncludes text '\t' = false →
        (∀ line ∈ rest, (splitChar ',' line).length = 2 ∧
            ∀ t ∈ splitChar ',' line, isNaNb (jsParseFloat t) = false) →
        csvNamesOf (parseCSVasEEG text) = some ["time", "value"] ∧
        csvChannelLengthsOf (parseCSVasEEG text) = some [rest.length, rest.length]) ∧
    (∀ (text l0 : String) (rest : List String),
        nonBlankLines text = l0 :: rest →
        jsIncludes text '\t' = false →
        isNaNb (jsParseFloat ((splitChar ',' l0).getD 0 "")) = false →
        csvNamesOf (parseCSVasEEG text) =
          some ((splitChar ',' l0).mapIdx (fun i _ => "Ch" ++ toString (i + 1)))) := by
  constructor
  · intro text rest hlines htab hrows
    have hdel : csvDelimiter text = ',' := by
      unfold csvDelimiter
      rw [htab]
      rfl
    have hred : parseCSVasEEG text = .ok (parseCSVLines ',' "time,value" rest) := by
      unfold parseCSVasEEG
      rw [hlines, hdel]
    obtain ⟨hn, hc⟩ := parseCSVLines_header_names_lengths rest hrows
    rw [show csvNamesOf (parseCSVasEEG text) =
        some (parseCSVLines ',' "time,value" rest).channelNames from by rw [hred]; rfl,
      show csvChannelLengthsOf (parseCSVasEEG text) =
        some ((parseCSVLines ',' "time,value" rest).channels.map List.length) from by
          rw [hred]; rfl,
      hn, hc]
    exact ⟨rfl, rfl⟩
  · intro text l0 rest hlines htab hfirst
    have hdel : csvDelimiter text = ',' := by
      unfold csvDelimiter
      rw [htab]
      rfl
    have hred : parseCSVasEEG text = .ok (parseCSVLines ',' l0 rest) := by
      unfold parseCSVasEEG
      rw [hlines, hdel]
    rw [show csvNamesOf (parseCSVasEEG text) =
        some (parseCSVLines ',' l0 rest).channelNames from by rw [hred]; rfl,
      parseCSVLines_noheader_names ',' l0 rest hfirst]

/-- C6 amended witness: both parts of the theorem applied to concrete
files — a `time,value` file with three numeric rows, and a headerless
numeric file. -/
theorem C6_csv_header_detection_witness :
    (csvNamesOf (parseCSVasEEG "time,value\n1,2\n3,4\n5,6") = some ["time", "value"] ∧
     csvChannelLengthsOf (parseCSVasEEG "time,value\n1,2\n3,4\n5,6") = some [3, 3]) ∧
    csvNamesOf (parseCSVasEEG "1,2\n3,4") =
      some ((splitChar ',' "1,2").mapIdx (fun i _ => "Ch" ++ toString (i + 1))) := by
  constructor
  · have h := C6_csv_header_detection.1 "time,value\n1,2\n3,4\n5,6" ["1,2", "3,4", "5,6"]
      (by decide) (by decide) (by decide)
    exact h
  · exact C6_csv_header_detection.2 "1,2\n3,4" "1,2" ["3,4"] (by decide) (by decide) (by decide)

end Adapter
